import Mathlib

/-!
# Verification of the hypha-apps-cli core (`hypha_apps_cli/__main__.py`)

A shallow embedding of the two local subsystems of the CLI:

* the credential lifecycle manager (`is_token_expired`, `save_token_to_file`,
  `load_token_from_file`, `get_token_expiration_info`, `format_time_remaining`,
  and the token-resolution step of `connect`), and
* the file-packaging pipeline (`infer_format_and_content`, `collect_files`).

Python values are embedded as follows: `str` as `String`, `bytes` as
`List Nat` (byte values), `int` as `Int`, `None`-able results as `Option`,
code that can raise as `Except String` (the `String` being the message of
the exception), the filesystem and the process working directory as an
explicit `FS` value, and `pathlib.Path` as `PyPath`.  The stdlib helpers the
source calls (`base64.b64decode`, `bytes.decode("utf-8")`, `json.loads`,
`mimetypes.guess_type`, `str.strip`, `str.split`, `pathlib` operations) are
embedded from their observable CPython semantics, with the deliberate
restriction that JSON numbers are modelled as integers only (the repository
only ever reads the integer `exp` claim).
-/

/-! ## Python `str` helpers -/

/-- The characters `str.strip()` removes (the ASCII whitespace set). -/
def pyWhitespace (c : Char) : Bool :=
  c = ' ' || c = '\t' || c = '\n' || c = '\r' || c = '\x0b' || c = '\x0c'

/-- Python `s.strip()`: drop ASCII whitespace from both ends. -/
def pyStrip (s : String) : String :=
  String.mk (((s.data.dropWhile pyWhitespace).reverse.dropWhile pyWhitespace).reverse)

/-- Python `s.replace("\\", "/")` (single-character pattern, hence a map). -/
def normalizeName (s : String) : String :=
  String.mk (s.data.map (fun c => if c = '\\' then '/' else c))

/-! ## `base64.b64decode` (non-strict mode, as called by the source)

CPython's `binascii.a2b_base64` in non-strict mode: characters outside the
standard alphabet are skipped; a pad character `=` seen with at least two
data characters in the current quad and enough accumulated pads ends the
decode successfully; input ending with a partial quad is an error. -/

/-- Value of a standard-alphabet base64 character, `none` for other characters. -/
def b64Val (c : Char) : Option Nat :=
  if 'A' ≤ c ∧ c ≤ 'Z' then some (c.toNat - 'A'.toNat)
  else if 'a' ≤ c ∧ c ≤ 'z' then some (c.toNat - 'a'.toNat + 26)
  else if '0' ≤ c ∧ c ≤ '9' then some (c.toNat - '0'.toNat + 52)
  else if c = '+' then some 62
  else if c = '/' then some 63
  else none

/-- The inner loop of `binascii.a2b_base64` (non-strict).  State: remaining
input, quad position (0..3), accumulated pad count, leftover bits, output
bytes so far (reversed). -/
def b64Loop : List Char → Nat → Nat → Nat → List Nat → Except String (List Nat)
  | [], quadPos, _, _, out =>
    if quadPos = 0 then .ok out.reverse
    else if quadPos = 1 then .error "Invalid base64-encoded string"
    else .error "Incorrect padding"
  | c :: rest, quadPos, pads, left, out =>
    if c = '=' then
      if 2 ≤ quadPos ∧ 4 ≤ quadPos + (pads + 1) then .ok out.reverse
      else b64Loop rest quadPos (pads + 1) left out
    else
      match b64Val c with
      | none => b64Loop rest quadPos pads left out
      | some v =>
        match quadPos with
        | 0 => b64Loop rest 1 0 v out
        | 1 => b64Loop rest 2 0 (v % 16) ((left * 4 + v / 16) :: out)
        | 2 => b64Loop rest 3 0 (v % 4) ((left * 16 + v / 4) :: out)
        | _ => b64Loop rest 0 0 0 ((left * 64 + v) :: out)

/-- `base64.b64decode(s)` with the default non-strict validation. -/
def b64decode (s : String) : Except String (List Nat) :=
  b64Loop s.data 0 0 0 []

/-- The padding the source appends: `"=" * (4 - len(payload_b64) % 4)`.
Note this appends four pads when the length is already a multiple of four. -/
def b64padding (s : String) : String :=
  String.mk (List.replicate (4 - s.length % 4) '=')

/-! ## `base64.b64encode(...).decode("utf-8")` -/

/-- Character of a 6-bit group in the standard base64 alphabet. -/
def b64Char (n : Nat) : Char :=
  if n < 26 then Char.ofNat ('A'.toNat + n)
  else if n < 52 then Char.ofNat ('a'.toNat + (n - 26))
  else if n < 62 then Char.ofNat ('0'.toNat + (n - 52))
  else if n = 62 then '+'
  else '/'

/-- Encode a byte list in standard base64 with `=` padding. -/
def b64encodeLoop : List Nat → List Char
  | b1 :: b2 :: b3 :: rest =>
    let w := (b1 % 256) * 65536 + (b2 % 256) * 256 + b3 % 256
    b64Char (w / 262144) :: b64Char (w / 4096 % 64) :: b64Char (w / 64 % 64)
      :: b64Char (w % 64) :: b64encodeLoop rest
  | [b1, b2] =>
    let w := (b1 % 256) * 1024 + (b2 % 256) * 4
    [b64Char (w / 4096), b64Char (w / 64 % 64), b64Char (w % 64), '=']
  | [b1] =>
    let w := (b1 % 256) * 16
    [b64Char (w / 64), b64Char (w % 64), '=', '=']
  | [] => []

/-- `base64.b64encode(bytes).decode("utf-8")`. -/
def b64encode (bs : List Nat) : String :=
  String.mk (b64encodeLoop bs)

/-! ## `bytes.decode("utf-8")` and `str.encode("utf-8")` -/

/-- Strict UTF-8 decoding of a byte list (rejects truncated sequences,
stray continuation bytes, overlong forms, surrogates and out-of-range
code points, as CPython's `bytes.decode("utf-8")` does). -/
def utf8Loop : Nat → List Nat → Except String (List Char)
  | _, [] => .ok []
  | 0, _ :: _ => .error "UnicodeDecodeError"
  | fuel + 1, b :: rest =>
    if b < 128 then
      match utf8Loop fuel rest with
      | .error e => .error e
      | .ok cs => .ok (Char.ofNat b :: cs)
    else if 194 ≤ b ∧ b ≤ 223 then
      match rest with
      | c1 :: rest1 =>
        if 128 ≤ c1 ∧ c1 ≤ 191 then
          match utf8Loop fuel rest1 with
          | .error e => .error e
          | .ok cs => .ok (Char.ofNat ((b - 192) * 64 + (c1 - 128)) :: cs)
        else .error "UnicodeDecodeError"
      | [] => .error "UnicodeDecodeError"
    else if 224 ≤ b ∧ b ≤ 239 then
      match rest with
      | c1 :: c2 :: rest2 =>
        let lo1 := if b = 224 then 160 else 128
        let hi1 := if b = 237 then 159 else 191
        if (lo1 ≤ c1 ∧ c1 ≤ hi1) ∧ (128 ≤ c2 ∧ c2 ≤ 191) then
          match utf8Loop fuel rest2 with
          | .error e => .error e
          | .ok cs =>
            .ok (Char.ofNat ((b - 224) * 4096 + (c1 - 128) * 64 + (c2 - 128)) :: cs)
        else .error "UnicodeDecodeError"
      | _ => .error "UnicodeDecodeError"
    else if 240 ≤ b ∧ b ≤ 244 then
      match rest with
      | c1 :: c2 :: c3 :: rest3 =>
        let lo1 := if b = 240 then 144 else 128
        let hi1 := if b = 244 then 143 else 191
        if (lo1 ≤ c1 ∧ c1 ≤ hi1) ∧ (128 ≤ c2 ∧ c2 ≤ 191) ∧ (128 ≤ c3 ∧ c3 ≤ 191) then
          match utf8Loop fuel rest3 with
          | .error e => .error e
          | .ok cs =>
            .ok (Char.ofNat ((b - 240) * 262144 + (c1 - 128) * 4096
                  + (c2 - 128) * 64 + (c3 - 128)) :: cs)
        else .error "UnicodeDecodeError"
      | _ => .error "UnicodeDecodeError"
    else .error "UnicodeDecodeError"

/-- `bytes.decode("utf-8")`.  The fuel equals the byte count: every
recursive step of the loop consumes at least one byte. -/
def utf8Decode (bs : List Nat) : Except String String :=
  match utf8Loop bs.length bs with
  | .error e => .error e
  | .ok cs => .ok (String.mk cs)

/-! ## `json.loads`

A recursive-descent embedding of CPython's `json.loads` restricted to the
shapes the repository can meet: objects, arrays, strings (with the standard
escapes; `\uXXXX` for non-surrogate code points), integers, `true`, `false`
and `null`.  Non-integer number literals (floats, `NaN`, `Infinity`) are
outside the model and are rejected.  Duplicate object keys follow Python
`dict` construction: the last occurrence wins. -/

inductive Json where
  | null
  | bool (b : Bool)
  | num (n : Int)
  | str (s : String)
  | arr (elems : List Json)
  | obj (members : List (String × Json))

/-- JSON whitespace (the only whitespace `json.loads` skips). -/
def jsonWs (c : Char) : Bool :=
  c = ' ' || c = '\t' || c = '\n' || c = '\r'

/-- Skip JSON whitespace. -/
def skipWs (l : List Char) : List Char :=
  l.dropWhile jsonWs

/-- Value of a hexadecimal digit. -/
def hexVal (c : Char) : Option Nat :=
  if '0' ≤ c ∧ c ≤ '9' then some (c.toNat - '0'.toNat)
  else if 'a' ≤ c ∧ c ≤ 'f' then some (c.toNat - 'a'.toNat + 10)
  else if 'A' ≤ c ∧ c ≤ 'F' then some (c.toNat - 'A'.toNat + 10)
  else none

/-- Scan the body of a JSON string literal (the opening quote already
consumed); returns the decoded string and the remaining input. -/
def parseStrLoop : Nat → List Char → List Char → Option (String × List Char)
  | 0, _, _ => none
  | _ + 1, [], _ => none
  | fuel + 1, c :: rest, acc =>
    if c = '"' then some (String.mk acc.reverse, rest)
    else if c = '\\' then
      match rest with
      | [] => none
      | e :: rest1 =>
        if e = '"' then parseStrLoop fuel rest1 ('"' :: acc)
        else if e = '\\' then parseStrLoop fuel rest1 ('\\' :: acc)
        else if e = '/' then parseStrLoop fuel rest1 ('/' :: acc)
        else if e = 'b' then parseStrLoop fuel rest1 ('\x08' :: acc)
        else if e = 'f' then parseStrLoop fuel rest1 ('\x0c' :: acc)
        else if e = 'n' then parseStrLoop fuel rest1 ('\n' :: acc)
        else if e = 'r' then parseStrLoop fuel rest1 ('\r' :: acc)
        else if e = 't' then parseStrLoop fuel rest1 ('\t' :: acc)
        else if e = 'u' then
          match rest1 with
          | h1 :: h2 :: h3 :: h4 :: rest2 =>
            match hexVal h1, hexVal h2, hexVal h3, hexVal h4 with
            | some v1, some v2, some v3, some v4 =>
              let cp := v1 * 4096 + v2 * 256 + v3 * 16 + v4
              if 55296 ≤ cp ∧ cp ≤ 57343 then none
              else parseStrLoop fuel rest2 (Char.ofNat cp :: acc)
            | _, _, _, _ => none
          | _ => none
        else none
    else if c.toNat < 32 then none
    else parseStrLoop fuel rest (c :: acc)

/-- Scan a run of decimal digits. -/
def parseDigits : List Char → Nat → Nat → (Nat × Nat × List Char)
  | c :: rest, n, acc =>
    if '0' ≤ c ∧ c ≤ '9' then parseDigits rest (n + 1) (acc * 10 + (c.toNat - '0'.toNat))
    else (n, acc, c :: rest)
  | [], n, acc => (n, acc, [])

/-- Parse a JSON integer literal (the model rejects floats: a `.`, `e` or
`E` immediately after the integer part is a parse failure).  A leading `0`
ends the literal, as in the JSON grammar. -/
def parseNumber (l : List Char) : Option (Int × List Char) :=
  let (neg, l1) := match l with
    | '-' :: rest => (true, rest)
    | _ => (false, l)
  let scan : Option (Nat × List Char) := match l1 with
    | '0' :: rest => some (0, rest)
    | _ =>
      match parseDigits l1 0 0 with
      | (0, _, _) => none
      | (_ + 1, acc, rest) => some (acc, rest)
  match scan with
  | none => none
  | some (acc, rest) =>
    match rest with
    | c :: _ => if c = '.' ∨ c = 'e' ∨ c = 'E' then none
                else some (if neg then -(acc : Int) else (acc : Int), rest)
    | [] => some (if neg then -(acc : Int) else (acc : Int), [])

/-- The three states of the JSON parser: expecting a value, looping over
object members (after `{`, at least one member expected), or looping over
array elements (after `[`, at least one element expected). -/
inductive PMode where
  | value
  | members (acc : List (String × Json))
  | elems (acc : List Json)

/-- The recursive core of `json.loads`, fuelled so that the recursion is
structural (twice the input length plus a constant always suffices, since
every two recursive steps consume at least one input character). -/
def parseJ : Nat → PMode → List Char → Option (Json × List Char)
  | 0, _, _ => none
  | fuel + 1, .value, l =>
    match skipWs l with
    | [] => none
    | c :: rest =>
      if c = '{' then
        match skipWs rest with
        | '}' :: r => some (.obj [], r)
        | _ => parseJ fuel (.members []) rest
      else if c = '[' then
        match skipWs rest with
        | ']' :: r => some (.arr [], r)
        | _ => parseJ fuel (.elems []) rest
      else if c = '"' then
        match parseStrLoop (rest.length + 1) rest [] with
        | none => none
        | some (s, r) => some (.str s, r)
      else if c = 't' then
        match rest with
        | 'r' :: 'u' :: 'e' :: r => some (.bool true, r)
        | _ => none
      else if c = 'f' then
        match rest with
        | 'a' :: 'l' :: 's' :: 'e' :: r => some (.bool false, r)
        | _ => none
      else if c = 'n' then
        match rest with
        | 'u' :: 'l' :: 'l' :: r => some (.null, r)
        | _ => none
      else
        match parseNumber (c :: rest) with
        | none => none
        | some (v, r) => some (.num v, r)
  | fuel + 1, .members acc, l =>
    match skipWs l with
    | '"' :: rest =>
      match parseStrLoop (rest.length + 1) rest [] with
      | none => none
      | some (k, r1) =>
        match skipWs r1 with
        | ':' :: r2 =>
          match parseJ fuel .value r2 with
          | none => none
          | some (v, r3) =>
            match skipWs r3 with
            | ',' :: r4 => parseJ fuel (.members (acc ++ [(k, v)])) r4
            | '}' :: r4 => some (.obj (acc ++ [(k, v)]), r4)
            | _ => none
        | _ => none
    | _ => none
  | fuel + 1, .elems acc, l =>
    match parseJ fuel .value l with
    | none => none
    | some (v, r1) =>
      match skipWs r1 with
      | ',' :: r2 => parseJ fuel (.elems (acc ++ [v])) r2
      | ']' :: r2 => some (.arr (acc ++ [v]), r2)
      | _ => none

/-- `json.loads(s)`: parse one value and require only whitespace after it. -/
def jsonLoads (s : String) : Except String Json :=
  match parseJ (2 * s.length + 2) .value s.data with
  | none => .error "Expecting value"
  | some (j, rest) =>
    if skipWs rest = [] then .ok j else .error "Extra data"

/-- Python `dict` lookup for the dict built by `json.loads`: the last
occurrence of a duplicated key wins. -/
def jsonDictGet (members : List (String × Json)) (key : String) : Option Json :=
  (members.reverse.find? (fun kv => kv.1 = key)).map (fun kv => kv.2)

/-! ## The credential lifecycle manager

`is_token_expired`, `get_token_expiration_info` and `format_time_remaining`
are embedded line by line from `hypha_apps_cli/__main__.py`; code inside a
`try` block lives in `Except String` (the exception monad), and the
`except Exception` handler is the surrounding `match` in the functions
without the `E` suffix.  `time.time()` is passed in as the explicit
argument `now` (the source truncates it with `int`, so `now : Int`). -/

/-- The loop of Python `token.split(".")`: single-character separator,
empty pieces kept. -/
def pySplitDotLoop : List Char → List Char → List String → List String
  | [], cur, acc => acc ++ [String.mk cur.reverse]
  | c :: rest, cur, acc =>
    if c = '.' then pySplitDotLoop rest [] (acc ++ [String.mk cur.reverse])
    else pySplitDotLoop rest (c :: cur) acc

/-- Python `token.split(".")` (so `"".split(".") = [""]`). -/
def pySplitDot (s : String) : List String :=
  pySplitDotLoop s.data [] []

/-- The numeric value Python uses when an `int` is compared or subtracted
with a decoded JSON value: JSON integers and booleans (Python `bool` is an
`int`) are numbers, everything else raises `TypeError`. -/
def pyNumVal : Json → Option Int
  | .num n => some n
  | .bool b => some (if b then 1 else 0)
  | _ => none

/-- Lines 38-45 of the source: pad the payload segment, base64-decode it,
decode as UTF-8, parse as JSON, and fetch the `exp` entry.  `.ok none`
means Python `None`: a missing `exp` key or a JSON `null` value (both make
`payload.get("exp") is None` true).  A non-object payload raises
(`AttributeError` on `.get` for lists and scalars). -/
def expField (payloadB64 : String) : Except String (Option Json) :=
  match b64decode (payloadB64 ++ b64padding payloadB64) with
  | .error e => .error e
  | .ok payloadBytes =>
    match utf8Decode payloadBytes with
    | .error e => .error e
    | .ok payloadStr =>
      match jsonLoads payloadStr with
      | .error e => .error e
      | .ok (.obj members) =>
        match jsonDictGet members "exp" with
        | some .null => .ok none
        | some v => .ok (some v)
        | none => .ok none
      | .ok _ => .error "AttributeError"

/-- The `try` block of `is_token_expired` (source lines 31-50). -/
def isTokenExpiredE (token : String) (now : Int) : Except String Bool :=
  let parts := pySplitDot token
  if parts.length ≠ 3 then .ok true
  else
    match expField parts[1]! with
    | .error e => .error e
    | .ok none => .ok true
    | .ok (some expv) =>
      match pyNumVal expv with
      | none => .error "TypeError"
      | some e => .ok (decide (now ≥ e))

/-- `is_token_expired` (source lines 29-54): any exception in the `try`
block is caught and turned into `True`. -/
def is_token_expired (token : String) (now : Int) : Bool :=
  match isTokenExpiredE token now with
  | .ok b => b
  | .error _ => true

/-- `format_time_remaining` (source lines 132-159).  Python `//` and `%`
agree with `Int.ediv` and `Int.emod` for the positive divisors used here. -/
def format_time_remaining (seconds : Int) : String :=
  if seconds ≤ 0 then "EXPIRED"
  else if seconds < 60 then toString seconds ++ " seconds"
  else if seconds < 3600 then
    let minutes := seconds.ediv 60
    let remaining_seconds := seconds.emod 60
    if remaining_seconds = 0 then toString minutes ++ " minutes"
    else toString minutes ++ " minutes " ++ toString remaining_seconds ++ " seconds"
  else if seconds < 86400 then
    let hours := seconds.ediv 3600
    let remaining_minutes := (seconds.emod 3600).ediv 60
    if remaining_minutes = 0 then toString hours ++ " hours"
    else toString hours ++ " hours " ++ toString remaining_minutes ++ " minutes"
  else
    let days := seconds.ediv 86400
    let remaining_hours := (seconds.emod 86400).ediv 3600
    if remaining_hours = 0 then toString days ++ " days"
    else toString days ++ " days " ++ toString remaining_hours ++ " hours"

/-- The two shapes of dictionary `get_token_expiration_info` returns:
`valid: False` with an `error` string, or `valid: True` with the
expiry fields. -/
inductive ExpInfo where
  | err (error : String)
  | info (exp_timestamp current_timestamp expires_in_seconds : Int)
      (is_expired : Bool) (expires_in_human : String)

/-- The `valid` entry of the returned dictionary. -/
def ExpInfo.valid : ExpInfo → Bool
  | .err _ => false
  | .info _ _ _ _ _ => true

/-- The `try` block of `get_token_expiration_info` (source lines 98-127). -/
def getTokenExpirationInfoE (token : String) (now : Int) : Except String ExpInfo :=
  let parts := pySplitDot token
  if parts.length ≠ 3 then .ok (.err "Invalid JWT format")
  else
    match expField parts[1]! with
    | .error e => .error e
    | .ok none => .ok (.err "No expiration time in token")
    | .ok (some expv) =>
      match pyNumVal expv with
      | none => .error "TypeError"
      | some e =>
        let diff := e - now
        .ok (.info e now diff (decide (diff ≤ 0)) (format_time_remaining diff))

/-- `get_token_expiration_info` (source lines 96-130): exceptions from the
`try` block become `{"valid": False, "error": str(e)}`. -/
def get_token_expiration_info (token : String) (now : Int) : ExpInfo :=
  match getTokenExpirationInfoE token now with
  | .ok i => i
  | .error e => .err e

/-! ## The cache slot (`.hypha_token` in the working directory) -/

/-- The persisted cache slot: `slot = some c` means the file exists with
content `c`; `none` means it does not exist.  The `chmod 0o600` step of a
save changes no observable content and is not modelled further. -/
structure CacheState where
  slot : Option String
deriving DecidableEq

/-- `save_token_to_file` (source lines 56-66): write the token verbatim
(overwriting any previous slot).  The modelled write succeeds; the
`except` arm only prints a warning. -/
def save_token_to_file (st : CacheState) (token : String) : CacheState :=
  let _ := st
  ⟨some token⟩

/-- `load_token_from_file` (source lines 68-94): return `None` when the
slot is missing; otherwise read and `strip()` the content, delete the slot
and return `None` when the stripped token is expired, else return the
stripped token.  Returns the result together with the new slot state. -/
def load_token_from_file (st : CacheState) (now : Int) : Option String × CacheState :=
  match st.slot with
  | none => (none, st)
  | some content =>
    let token := pyStrip content
    if is_token_expired token now then (none, ⟨none⟩)
    else (some token, st)

/-- Python truthiness of `os.getenv`: `None` and the empty string are falsy. -/
def pyFalsyOptStr : Option String → Bool
  | none => true
  | some s => s = ""

/-- The token-resolution step of `connect` (source lines 169-176):
`token = os.getenv("HYPHA_TOKEN")`, then `if not token:` fall through to
the cached slot. -/
def resolve_token (envToken : Option String) (st : CacheState) (now : Int) :
    Option String × CacheState :=
  if pyFalsyOptStr envToken then load_token_from_file st now
  else (envToken, st)

/-! ## Paths and the filesystem

`pathlib.Path` is embedded as a flag for absoluteness plus the list of
path components (`Path` drops empty components and `.`, and keeps `..`).
The filesystem is a list of absolute file paths (as component lists) with
their byte contents, together with the working directory; directories
exist exactly where some file lives beneath them (empty directories do
not occur in the packaging scenarios). -/

structure PyPath where
  isAbs : Bool
  parts : List String
deriving DecidableEq

structure FS where
  cwd : List String
  files : List (List String × List Nat)
deriving DecidableEq

/-- Generic prefix test on lists (used for path containment). -/
def listStarts {α : Type} [BEq α] : List α → List α → Bool
  | [], _ => true
  | _ :: _, [] => false
  | a :: as, b :: bs => a == b && listStarts as bs

/-- `strStarts pre s`: Python `s.startswith(pre)`. -/
def strStarts (pre s : String) : Bool :=
  listStarts pre.data s.data

/-- The loop of Python `s.split(sep)` for one-character separators. -/
def pySplitCharLoop (sep : Char) : List Char → List Char → List String → List String
  | [], cur, acc => acc ++ [String.mk cur.reverse]
  | c :: rest, cur, acc =>
    if c = sep then pySplitCharLoop sep rest [] (acc ++ [String.mk cur.reverse])
    else pySplitCharLoop sep rest (c :: cur) acc

/-- Python `s.split(sep)` for a one-character separator. -/
def pySplitChar (sep : Char) (s : String) : List String :=
  pySplitCharLoop sep s.data [] []

/-- `pathlib.Path(s)` for a POSIX path string: empty components and `.`
are dropped, `..` is kept. -/
def mkPath (s : String) : PyPath :=
  ⟨(match s.data with | '/' :: _ => true | _ => false),
   (pySplitChar '/' s).filter (fun seg => seg != "" && seg != ".")⟩

/-- `Path.name`: the last component (empty for `.` and `/`). -/
def pathName (p : PyPath) : String :=
  (p.parts.getLast?).getD ""

/-- `Path.parent`: drop the last component (the parent of `.` is `.`,
of `/` is `/`). -/
def parentP (p : PyPath) : PyPath :=
  ⟨p.isAbs, p.parts.dropLast⟩

/-- Lexical `..` elimination performed by `Path.resolve()` (the model has
no symlinks); `..` above the root is dropped, as on POSIX. -/
def resolveSegs (segs : List String) : List String :=
  segs.foldl (fun acc s => if s = ".." then acc.dropLast else acc ++ [s]) []

/-- `Path.resolve()`: make the path absolute against the working
directory and eliminate `..` lexically. -/
def resolveP (fs : FS) (p : PyPath) : PyPath :=
  ⟨true, resolveSegs (if p.isAbs then p.parts else fs.cwd ++ p.parts)⟩

/-- `Path.is_file()`: the resolved path is one of the filesystem's files. -/
def isFile (fs : FS) (p : PyPath) : Bool :=
  fs.files.any (fun f => f.1 == (resolveP fs p).parts)

/-- `Path.is_dir()`: some file lives strictly beneath the resolved path. -/
def isDir (fs : FS) (p : PyPath) : Bool :=
  fs.files.any (fun f =>
    listStarts (resolveP fs p).parts f.1 && f.1 != (resolveP fs p).parts)

/-- `open(path, "rb").read()` (also the byte source for text-mode reads). -/
def readBytes (fs : FS) (p : PyPath) : Except String (List Nat) :=
  match fs.files.find? (fun f => f.1 == (resolveP fs p).parts) with
  | some f => .ok f.2
  | none => .error "FileNotFoundError"

/-- `str(path)` with the host's separator convention; relative empty
paths render as `.` as in pathlib. -/
def joinSegs (sep : Char) : List String → String
  | [] => ""
  | [a] => a
  | a :: rest => a ++ String.mk [sep] ++ joinSegs sep rest

/-- `str(path)` rendered with separator `sep`. -/
def pathStr (sep : Char) (p : PyPath) : String :=
  if p.isAbs then String.mk [sep] ++ joinSegs sep p.parts
  else if p.parts.isEmpty then "." else joinSegs sep p.parts

/-- `Path.relative_to(root)`: purely lexical; mixing absolute and
relative paths, or a path not under the root, raises `ValueError`. -/
def relativeTo (p root : PyPath) : Except String PyPath :=
  if p.isAbs == root.isAbs && listStarts root.parts p.parts then
    .ok ⟨false, p.parts.drop root.parts.length⟩
  else .error "ValueError"

/-! ## `mimetypes.guess_type` -/

/-- `posixpath.splitext` on the final component: the extension starts at
the last dot, except that leading dots of the component never start one. -/
def extOf (name : String) : Option String :=
  let cs := name.data
  let lead := (cs.takeWhile (fun c => c = '.')).length
  let rest := cs.drop lead
  let tail := rest.reverse.takeWhile (fun c => c != '.')
  if tail.length = rest.length then none
  else some (String.mk ('.' :: tail.reverse))

/-- The entries of CPython's `mimetypes.types_map` relevant here (the
lookup is on the lower-cased extension; encoding suffixes such as `.gz`
are outside the model). -/
def mimeTable : List (String × String) :=
  [(".json", "application/json"), (".txt", "text/plain"),
   (".bin", "application/octet-stream"), (".py", "text/x-python"),
   (".html", "text/html"), (".htm", "text/html"), (".css", "text/css"),
   (".csv", "text/csv"), (".md", "text/markdown"), (".xml", "text/xml"),
   (".js", "text/javascript"), (".png", "image/png"),
   (".jpg", "image/jpeg"), (".jpeg", "image/jpeg"), (".gif", "image/gif"),
   (".pdf", "application/pdf"), (".zip", "application/zip")]

/-- `mimetypes.guess_type(path)[0]`. -/
def guess_type (filename : String) : Option String :=
  match extOf filename with
  | none => none
  | some ext =>
    let e := String.mk (ext.data.map Char.toLower)
    (mimeTable.find? (fun kv => kv.1 == e)).map (fun kv => kv.2)

/-! ## `fnmatch`-style matching used by `Path.glob` -/

/-- Membership in a `[...]` character set (with `a-z` ranges; a trailing
`-` is literal). -/
def inSet : List Char → Char → Bool
  | a :: '-' :: b :: rest, c => (a ≤ c && c ≤ b) || inSet rest c
  | a :: rest, c => (a == c) || inSet rest c
  | [], _ => false

/-- Scan the members of a `[...]` set up to the closing `]`; `none` when
the set is unterminated (then `[` is a literal). -/
def scanSetRest : List Char → List Char → Option (List Char × List Char)
  | [], _ => none
  | ']' :: rest, acc => some (acc.reverse, rest)
  | c :: rest, acc => scanSetRest rest (c :: acc)

/-- Scan a `[...]` set body; a `]` in first position is a literal member. -/
def scanSetBody (l : List Char) : Option (List Char × List Char) :=
  match l with
  | ']' :: rest => scanSetRest rest [']']
  | _ => scanSetRest l []

/-- Anchored `fnmatch`-style matching (`*`, `?`, `[...]`, `[!...]`),
fuelled so that the recursion is structural: every step either shortens
the pattern or the text. -/
def matchFuel : Nat → List Char → List Char → Bool
  | 0, _, _ => false
  | fuel + 1, pat, text =>
    match pat with
    | [] => text.isEmpty
    | '*' :: ps =>
      matchFuel fuel ps text
        || (match text with
            | [] => false
            | _ :: ts => matchFuel fuel ('*' :: ps) ts)
    | '?' :: ps =>
      (match text with
       | [] => false
       | _ :: ts => matchFuel fuel ps ts)
    | '[' :: ps =>
      let (neg, ps1) := match ps with
        | '!' :: r => (true, r)
        | _ => (false, ps)
      (match scanSetBody ps1 with
       | none =>
         (match text with
          | '[' :: ts => matchFuel fuel ps ts
          | _ => false)
       | some (body, restPat) =>
         (match text with
          | [] => false
          | c :: ts =>
            (if neg then !(inSet body c) else inSet body c)
              && matchFuel fuel restPat ts))
    | p :: ps =>
      (match text with
       | [] => false
       | c :: ts => p == c && matchFuel fuel ps ts)

/-- `fnmatch` of one path component against one glob component. -/
def fnmatchB (pat s : String) : Bool :=
  matchFuel (pat.length + s.length + 1) pat.data s.data

/-- The test the source runs to pick the glob branch:
`any(c in path_input.name for c in "*?[]")`. -/
def hasGlobChar (s : String) : Bool :=
  s.data.any (fun c => c == '*' || c == '?' || c == '[' || c == ']')

/-- Deduplicate a path enumeration, keeping first occurrences. -/
def dedupPaths (l : List PyPath) : List PyPath :=
  l.foldl (fun acc q => if acc.contains q then acc else acc ++ [q]) []

/-- `Path.glob(pattern)` for a single-component pattern: the direct
children of `base` whose final component matches; for the literal
pattern `**` (CPython ≤ 3.12): the base directory itself and every
descendant directory. -/
def globChildren (fs : FS) (base : PyPath) (pattern : String) : List PyPath :=
  if pattern == "**" then
    if !(isDir fs base) then []
    else dedupPaths (⟨true, base.parts⟩ :: fs.files.flatMap (fun f =>
      if listStarts base.parts f.1 then
        (List.range (f.1.length - base.parts.length - 1)).map
          (fun i => ⟨true, f.1.take (base.parts.length + 1 + i)⟩)
      else []))
  else
    (dedupPaths (fs.files.flatMap (fun f =>
      if listStarts base.parts f.1 && base.parts.length < f.1.length then
        [⟨true, f.1.take (base.parts.length + 1)⟩]
      else []))).filter (fun q => fnmatchB pattern (pathName q))

/-- `Path.rglob("*")`: every path strictly beneath `base` (files and the
directories implied by them), in filesystem enumeration order; empty on a
missing or non-directory base, as in pathlib. -/
def rglobStar (fs : FS) (base : PyPath) : List PyPath :=
  dedupPaths (fs.files.flatMap (fun f =>
    if listStarts base.parts f.1 && base.parts.length < f.1.length then
      (List.range (f.1.length - base.parts.length)).map
        (fun i => ⟨true, f.1.take (base.parts.length + 1 + i)⟩)
    else []))

/-! ## The file-packaging pipeline -/

/-- The `content` payload of one packaged file: a parsed JSON value, a
decoded text, or base64-encoded bytes. -/
inductive Content where
  | jsonC (v : Json)
  | textC (s : String)
  | b64C (s : String)

/-- One element of the list `collect_files` returns. -/
structure Entry where
  name : String
  content : Content
  format : String

/-- `infer_format_and_content` (source lines 294-317): classify by the
guessed media type and read the file accordingly.  There is no exception
handler here: a read, decode or JSON-parse failure propagates.  The
`name` is `str(filepath)` and is overwritten by the caller. -/
def infer_format_and_content (fs : FS) (filepath : PyPath) (sep : Char) :
    Except String Entry :=
  let mime := guess_type (pathName filepath)
  if mime == some "application/json" then
    match readBytes fs filepath with
    | .error e => .error e
    | .ok bs =>
      match utf8Decode bs with
      | .error e => .error e
      | .ok s =>
        match jsonLoads s with
        | .error e => .error e
        | .ok j => .ok ⟨pathStr sep filepath, .jsonC j, "json"⟩
  else if (match mime with | some m => strStarts "text/" m | none => false) then
    match readBytes fs filepath with
    | .error e => .error e
    | .ok bs =>
      match utf8Decode bs with
      | .error e => .error e
      | .ok s => .ok ⟨pathStr sep filepath, .textC s, "text"⟩
  else
    match readBytes fs filepath with
    | .error e => .error e
    | .ok bs => .ok ⟨pathStr sep filepath, .b64C (b64encode bs), "base64"⟩

/-- Source lines 322-327: resolve the optional source anchor; a file
anchor's root is its containing directory. -/
def anchorRoot (fs : FS) (source_path : Option PyPath) : Option PyPath :=
  match source_path with
  | none => none
  | some sp =>
    let spr := resolveP fs sp
    some (if isFile fs spr then parentP spr else spr)

/-- The `for path in matching_paths` loop of `collect_files` (source
lines 347-355): keep regular files, classify each, name it relative to
the anchor root if one was supplied (else relative to the matching base),
and normalize separators to forward slashes. -/
def collectLoop (fs : FS) (sep : Char) (source_root : Option PyPath)
    (base_dir : PyPath) : List PyPath → Except String (List Entry)
  | [] => .ok []
  | p :: rest =>
    if isFile fs p then
      match infer_format_and_content fs p sep with
      | .error e => .error e
      | .ok fd =>
        match (match source_root with
               | some root => relativeTo p root
               | none => relativeTo p base_dir) with
        | .error e => .error e
        | .ok rel =>
          match collectLoop fs sep source_root base_dir rest with
          | .error e => .error e
          | .ok es =>
            .ok (⟨normalizeName (pathStr sep rel), fd.content, fd.format⟩ :: es)
    else collectLoop fs sep source_root base_dir rest

/-- `collect_files` (source lines 319-357).  Note the single-file branch
uses `path_input` as given (unresolved) in `relative_to`, while the glob
and directory branches resolve their base first. -/
def collect_files (fs : FS) (path_input : PyPath) (source_path : Option PyPath)
    (sep : Char) : Except String (List Entry) :=
  let source_root := anchorRoot fs source_path
  if isFile fs path_input then
    match infer_format_and_content fs path_input sep with
    | .error e => .error e
    | .ok fd =>
      match source_root with
      | some root =>
        match relativeTo path_input root with
        | .error e => .error e
        | .ok rel => .ok [⟨normalizeName (pathStr sep rel), fd.content, fd.format⟩]
      | none => .ok [⟨normalizeName (pathName path_input), fd.content, fd.format⟩]
  else
    if hasGlobChar (pathName path_input) then
      let base_dir := resolveP fs (parentP path_input)
      collectLoop fs sep source_root base_dir
        (globChildren fs base_dir (pathName path_input))
    else
      let base_dir := resolveP fs path_input
      collectLoop fs sep source_root base_dir (rglobStar fs base_dir)

/-- A normal path component: nonempty and not a dot component. -/
def normSeg (s : String) : Bool :=
  s != "" && s != "." && s != ".."

/-- Wellformed filesystem: file paths are made of normal components, and
no file path is a prefix of another (no path is both a file and a
directory). -/
def FS.wfB (fs : FS) : Bool :=
  fs.files.all (fun f => f.1.all normSeg)
    && fs.files.all (fun f => fs.files.all (fun g =>
         f.1 == g.1 || !(listStarts f.1 g.1)))

/-- The filesystem for C3's escape: a `.json` file whose content `{` is
not valid JSON. -/
def fsBadJson : FS :=
  ⟨["work"], [(["work", "bad.json"], [123])]⟩

/-- Working directory `/work` holding `docs/readme.txt` (content `hi`). -/
def fsDocs : FS :=
  ⟨["work"], [(["work", "docs", "readme.txt"], [104, 105])]⟩

/-- Working directory `/w` with `x/a.txt` and `x/sub/deep.txt`. -/
def fsGlob : FS :=
  ⟨["w"], [(["w", "x", "a.txt"], [104]), (["w", "x", "sub", "deep.txt"], [105])]⟩

/-- An empty filesystem with working directory `/w`. -/
def fsEmpty : FS :=
  ⟨["w"], []⟩

/-- The three entries collecting `pkg` from `fsDemo` must produce. -/
def listDemo : List Entry :=
  [⟨"a.json", .jsonC (.obj [("a", .num 1)]), "json"⟩,
   ⟨"b.txt", .textC "hi", "text"⟩,
   ⟨"c.bin", .b64C "AP8=", "base64"⟩]

def fsDemo : FS :=
  ⟨["work"],
   [(["work", "pkg", "a.json"], [123, 34, 97, 34, 58, 49, 125]),
    (["work", "pkg", "b.txt"], [104, 105]),
    (["work", "pkg", "c.bin"], [0, 255])]⟩

/-! ## Claim theorems: credential lifecycle -/

/-- C1: for every three-segment token whose payload decodes to a record
with an integer `exp` field, `is_token_expired` returns `false` when
`exp` is strictly greater than the current Unix time and `true` when
`exp` is less than or equal to it (the boundary second counts as
expired). -/
theorem c1_expiry_boundary (token : String) (now exp : Int)
    (h3 : (pySplitDot token).length = 3)
    (hexp : expField (pySplitDot token)[1]! = .ok (some (.num exp))) :
    (now < exp → is_token_expired token now = false)
      ∧ (exp ≤ now → is_token_expired token now = true) := by
  have hcore : is_token_expired token now = decide (now ≥ exp) := by
    unfold is_token_expired isTokenExpiredE
    simp [h3, hexp, pyNumVal]
  constructor <;> intro hcmp <;> rw [hcore] <;> simp <;> omega

/-- Witness for C1 at the concrete token with payload `exp = 100`:
not yet expired at time 99, expired at the boundary time 100. -/
theorem c1_expiry_boundary_witness :
    is_token_expired "h.eyJleHAiOjEwMH0.s" 99 = false
      ∧ is_token_expired "h.eyJleHAiOjEwMH0.s" 100 = true :=
  ⟨(c1_expiry_boundary "h.eyJleHAiOjEwMH0.s" 99 100 (by rfl) (by rfl)).1 (by decide),
   (c1_expiry_boundary "h.eyJleHAiOjEwMH0.s" 100 100 (by rfl) (by rfl)).2 (by decide)⟩

/-- C5: for every string that does not split on `.` into exactly three
segments, and for every three-segment token whose payload fails base64
decoding, UTF-8 decoding, or JSON parsing, is not a JSON object, or
lacks an `exp` entry, `is_token_expired` returns `true` (it never
raises) and `get_token_expiration_info` reports `valid: False`. -/
theorem c5_malformed_is_expired_and_invalid (token : String) (now : Int)
    (h : (pySplitDot token).length ≠ 3
       ∨ ((pySplitDot token).length = 3
            ∧ ((∃ e, expField (pySplitDot token)[1]! = .error e)
                 ∨ expField (pySplitDot token)[1]! = .ok none))) :
    is_token_expired token now = true
      ∧ (get_token_expiration_info token now).valid = false := by
  unfold is_token_expired isTokenExpiredE
    get_token_expiration_info getTokenExpirationInfoE
  rcases h with h3 | ⟨h3, ⟨e, herr⟩ | hnone⟩
  · simp [h3, ExpInfo.valid]
  · simp [h3, herr, ExpInfo.valid]
  · simp [h3, hnone, ExpInfo.valid]

/-- Witness for C5 at the one-segment string `"abc"`. -/
theorem c5_malformed_witness :
    is_token_expired "abc" 0 = true
      ∧ (get_token_expiration_info "abc" 0).valid = false :=
  c5_malformed_is_expired_and_invalid "abc" 0 (Or.inl (by decide))

/-- C3 (amended): decode and parse failures inside the credential logic
are caught and become the conservative fallback (`True` for
`is_token_expired`, a `valid: False` record for
`get_token_expiration_info`), but `infer_format_and_content` has no
handler, so a parse failure there (a `.json` file whose content is not
valid JSON) propagates as an uncaught exception, including out of
`collect_files`. -/
theorem c3_error_containment :
    (∀ token now e, isTokenExpiredE token now = .error e →
        is_token_expired token now = true)
      ∧ (∀ token now e, getTokenExpirationInfoE token now = .error e →
          get_token_expiration_info token now = .err e)
      ∧ infer_format_and_content fsBadJson (mkPath "bad.json") '/' =
          .error "Expecting value"
      ∧ collect_files fsBadJson (mkPath ".") none '/' =
          .error "Expecting value" := by
  refine ⟨?_, ?_, by rfl, by rfl⟩
  · intro token now e h
    unfold is_token_expired
    rw [h]
  · intro token now e h
    unfold get_token_expiration_info
    rw [h]

/-- Witness for C3's quantified conjuncts at a token whose payload
segment decodes to the empty byte string (a JSON parse error). -/
theorem c3_error_containment_witness :
    is_token_expired "a.!!!.b" 0 = true
      ∧ get_token_expiration_info "a.!!!.b" 0 = .err "Expecting value" :=
  ⟨c3_error_containment.1 "a.!!!.b" 0 "Expecting value" (by rfl),
   c3_error_containment.2.1 "a.!!!.b" 0 "Expecting value" (by rfl)⟩

/-- C3 counterexample to the claim as stated: a parse failure inside the
content-classification logic is not converted to a fallback — it escapes
`infer_format_and_content` as an uncaught exception. -/
theorem c3_classification_failure_escapes :
    infer_format_and_content fsBadJson (mkPath "bad.json") '/' =
      .error "Expecting value" := by rfl

/-- C4 counterexample to the claim as stated: a token carrying trailing
whitespace (here a newline) whose `exp` lies in the future round-trips to
the stripped token, not to the identical string. -/
theorem c4_round_trip_counterexample :
    is_token_expired "h.eyJleHAiOjIwMDAwMDAwMDB9.s\n" 0 = false
      ∧ (load_token_from_file
            (save_token_to_file ⟨none⟩ "h.eyJleHAiOjIwMDAwMDAwMDB9.s\n") 0).fst
          ≠ some "h.eyJleHAiOjIwMDAwMDAwMDB9.s\n" := by
  constructor
  · rfl
  · decide

/-- C4 (amended): for every token equal to its own whitespace-stripped
form whose `exp` is still in the future at load time,
`save_token_to_file` followed immediately by `load_token_from_file`
returns exactly the same token string. -/
theorem c4_save_load_round_trip (st : CacheState) (token : String) (now : Int)
    (hstrip : pyStrip token = token)
    (hfresh : is_token_expired token now = false) :
    (load_token_from_file (save_token_to_file st token) now).fst = some token := by
  unfold save_token_to_file load_token_from_file
  simp [hstrip, hfresh]

/-- Witness for C4 at a whitespace-free token with `exp` = 2000000000,
loaded at time 0. -/
theorem c4_save_load_round_trip_witness :
    (load_token_from_file
        (save_token_to_file ⟨none⟩ "h.eyJleHAiOjIwMDAwMDAwMDB9.s") 0).fst
      = some "h.eyJleHAiOjIwMDAwMDAwMDB9.s" :=
  c4_save_load_round_trip ⟨none⟩ "h.eyJleHAiOjIwMDAwMDAwMDB9.s" 0
    (by rfl) (by rfl)

/-- C6: whenever the cache slot exists and holds content whose stripped
token is judged expired, `load_token_from_file` returns `None` and
deletes the slot; afterwards the slot no longer exists and an immediate
second load also returns `None`. -/
theorem c6_expired_load_deletes_slot (st : CacheState) (c : String) (now : Int)
    (hslot : st.slot = some c)
    (hexp : is_token_expired (pyStrip c) now = true) :
    (load_token_from_file st now).fst = none
      ∧ (load_token_from_file st now).snd.slot = none
      ∧ (load_token_from_file (load_token_from_file st now).snd now).fst = none := by
  obtain ⟨slot⟩ := st
  cases hslot
  simp [load_token_from_file, hexp]

/-- Witness for C6 at a slot holding the unparseable token `"x"`. -/
theorem c6_expired_load_deletes_slot_witness :
    (load_token_from_file ⟨some "x"⟩ 0).fst = none
      ∧ (load_token_from_file ⟨some "x"⟩ 0).snd.slot = none
      ∧ (load_token_from_file (load_token_from_file ⟨some "x"⟩ 0).snd 0).fst = none :=
  c6_expired_load_deletes_slot ⟨some "x"⟩ "x" 0 (by rfl) (by rfl)

/-- C10: in the token resolution of `connect`, an explicit override token
that is the empty string behaves exactly like an absent override: the
resolution falls through to the cached slot. -/
theorem c10_empty_override_falls_through (st : CacheState) (now : Int) :
    resolve_token (some "") st now = resolve_token none st now := by
  rfl

/-! ## Helper lemmas for the packaging claims -/

theorem noBackslash_normalizeName (s : String) : '\\' ∉ (normalizeName s).data := by
  intro h
  have h2 : '\\' ∈ s.data.map (fun c => if c = '\\' then '/' else c) := h
  rcases List.mem_map.mp h2 with ⟨a, _, hfa⟩
  by_cases hA : a = '\\'
  · rw [if_pos hA] at hfa
    exact absurd hfa (by decide)
  · rw [if_neg hA] at hfa
    exact hA hfa

theorem collectLoop_names (fs : FS) (sep : Char) (src : Option PyPath)
    (base : PyPath) :
    ∀ (ps : List PyPath) (es : List Entry),
      collectLoop fs sep src base ps = .ok es →
      ∀ e ∈ es, ∃ s, e.name = normalizeName s := by
  intro ps
  induction ps with
  | nil =>
    intro es h e he
    simp only [collectLoop, Except.ok.injEq] at h
    subst h
    cases he
  | cons p rest ih =>
    intro es h e he
    simp only [collectLoop] at h
    by_cases hf : isFile fs p = true
    · rw [if_pos hf] at h
      cases hinf : infer_format_and_content fs p sep with
      | error e1 => rw [hinf] at h; simp at h
      | ok fd =>
        rw [hinf] at h
        dsimp only at h
        cases hrel : (match src with
                      | some root => relativeTo p root
                      | none => relativeTo p base) with
        | error e2 => rw [hrel] at h; simp at h
        | ok rel =>
          rw [hrel] at h
          dsimp only at h
          cases hrec : collectLoop fs sep src base rest with
          | error e3 => rw [hrec] at h; simp at h
          | ok es2 =>
            rw [hrec] at h
            simp only [Except.ok.injEq] at h
            subst h
            rcases List.mem_cons.mp he with he1 | he2
            · subst he1
              exact ⟨pathStr sep rel, rfl⟩
            · exact ih es2 hrec e he2
    · rw [if_neg hf] at h
      exact ih es h e he

theorem collect_files_names (fs : FS) (p : PyPath) (src : Option PyPath)
    (sep : Char) (es : List Entry) (h : collect_files fs p src sep = .ok es) :
    ∀ e ∈ es, ∃ s, e.name = normalizeName s := by
  unfold collect_files at h
  by_cases hf : isFile fs p = true
  · rw [if_pos hf] at h
    cases hinf : infer_format_and_content fs p sep with
    | error e1 => rw [hinf] at h; simp at h
    | ok fd =>
      rw [hinf] at h
      dsimp only at h
      cases hr : anchorRoot fs src with
      | none =>
        rw [hr] at h
        simp only [Except.ok.injEq] at h
        subst h
        intro e he
        rcases List.mem_cons.mp he with he1 | he2
        · subst he1; exact ⟨pathName p, rfl⟩
        · cases he2
      | some root =>
        rw [hr] at h
        dsimp only at h
        cases hrel : relativeTo p root with
        | error e2 => rw [hrel] at h; simp at h
        | ok rel =>
          rw [hrel] at h
          simp only [Except.ok.injEq] at h
          subst h
          intro e he
          rcases List.mem_cons.mp he with he1 | he2
          · subst he1; exact ⟨pathStr sep rel, rfl⟩
          · cases he2
  · rw [if_neg hf] at h
    by_cases hg : hasGlobChar (pathName p) = true
    · rw [if_pos hg] at h
      exact collectLoop_names _ _ _ _ _ es h
    · rw [if_neg hg] at h
      exact collectLoop_names _ _ _ _ _ es h

theorem listStarts_take {α : Type} [BEq α] [LawfulBEq α] :
    ∀ (a b : List α) (n : Nat), listStarts a b = true → a.length ≤ n →
      listStarts a (b.take n) = true := by
  intro a
  induction a with
  | nil => intro b n _ _; rfl
  | cons x as ih =>
    intro b n h hn
    cases b with
    | nil => simp [listStarts] at h
    | cons y bs =>
      cases n with
      | zero => exact absurd hn (by simp)
      | succ m =>
        simp only [listStarts, Bool.and_eq_true] at h
        simp only [List.take_succ_cons, listStarts, Bool.and_eq_true]
        refine ⟨h.1, ih bs m h.2 ?_⟩
        simpa using Nat.le_of_succ_le_succ hn

theorem listStarts_take_self {α : Type} [BEq α] [LawfulBEq α] :
    ∀ (l : List α) (n : Nat), listStarts (l.take n) l = true := by
  intro l
  induction l with
  | nil => intro n; simp [listStarts]
  | cons x xs ih =>
    intro n
    cases n with
    | zero => rfl
    | succ m =>
      simp only [List.take_succ_cons, listStarts, Bool.and_eq_true]
      exact ⟨beq_self_eq_true x, ih m⟩

theorem dedup_foldl_mem :
    ∀ (l acc : List PyPath) (q : PyPath),
      q ∈ l.foldl (fun acc2 x => if acc2.contains x then acc2 else acc2 ++ [x]) acc →
      q ∈ acc ∨ q ∈ l := by
  intro l
  induction l with
  | nil => intro acc q h; exact Or.inl h
  | cons a l2 ih =>
    intro acc q h
    simp only [List.foldl_cons] at h
    rcases ih _ q h with h2 | h2
    · by_cases hc : acc.contains a = true
      · rw [if_pos hc] at h2
        exact Or.inl h2
      · rw [if_neg hc] at h2
        rcases List.mem_append.mp h2 with h3 | h3
        · exact Or.inl h3
        · right
          rcases List.mem_singleton.mp h3 with rfl
          exact List.mem_cons_self _ _
    · exact Or.inr (List.mem_cons_of_mem _ h2)

theorem dedupPaths_subset (l : List PyPath) (q : PyPath)
    (h : q ∈ dedupPaths l) : q ∈ l := by
  rcases dedup_foldl_mem l [] q h with h2 | h2
  · cases h2
  · exact h2

theorem resolveSegs_append (segs : List String) :
    ∀ acc : List String, (∀ s ∈ segs, s ≠ "..") →
      segs.foldl (fun acc2 s => if s = ".." then acc2.dropLast else acc2 ++ [s]) acc
        = acc ++ segs := by
  induction segs with
  | nil => intro acc _; simp
  | cons x xs ih =>
    intro acc hx
    have hxne : x ≠ ".." := hx x (List.mem_cons_self _ _)
    simp only [List.foldl_cons, if_neg hxne]
    rw [ih (acc ++ [x]) (fun s hs => hx s (List.mem_cons_of_mem _ hs))]
    simp

theorem resolveSegs_id (segs : List String) (h : ∀ s ∈ segs, s ≠ "..") :
    resolveSegs segs = segs := by
  unfold resolveSegs
  simpa using resolveSegs_append segs [] h

/-! ## Claim theorems: file packaging -/

/-- C7: collecting a directory containing `a.json`, `b.txt` and `c.bin`
yields three entries with formats `json`, `text` and `base64` (media type
exactly `application/json` gives `json`, a `text/` prefix gives `text`,
anything else gives `base64`); and in any collection, every entry's name
contains no backslash separator. -/
theorem c7_directory_formats :
    collect_files fsDemo (mkPath "pkg") none '/' = .ok listDemo
      ∧ ∀ (fs : FS) (p : PyPath) (src : Option PyPath) (sep : Char)
          (entries : List Entry), collect_files fs p src sep = .ok entries →
            ∀ e ∈ entries, '\\' ∉ e.name.data := by
  constructor
  · rfl
  · intro fs p src sep entries h e he
    obtain ⟨s, hs⟩ := collect_files_names fs p src sep entries h e he
    rw [hs]
    exact noBackslash_normalizeName s

/-- Witness for C7: the first collected entry of the demo directory,
whose name contains no backslash. -/
theorem c7_directory_formats_witness :
    '\\' ∉ (Entry.mk "a.json" (.jsonC (.obj [("a", .num 1)])) "json").name.data :=
  c7_directory_formats.2 fsDemo (mkPath "pkg") none '/' listDemo
    c7_directory_formats.1
    (Entry.mk "a.json" (.jsonC (.obj [("a", .num 1)])) "json")
    (List.mem_cons_self _ _)

/-- C2 (code bug): collecting the single relative file `docs/readme.txt`
with the relative anchor `docs` raises `ValueError` — the single-file
branch passes the unresolved `path_input` to `Path.relative_to` against
the resolved (absolute) anchor root — whereas without an anchor it yields
the basename entry, and with absolute inputs the anchored collection
yields `readme.txt` as the spec describes. -/
theorem c2_single_file_anchor_value_error :
    collect_files fsDocs (mkPath "docs/readme.txt") (some (mkPath "docs")) '/'
        = .error "ValueError"
      ∧ collect_files fsDocs (mkPath "docs/readme.txt") none '/'
        = .ok [⟨"readme.txt", .textC "hi", "text"⟩]
      ∧ collect_files fsDocs (mkPath "/work/docs/readme.txt")
          (some (mkPath "/work/docs")) '/'
        = .ok [⟨"readme.txt", .textC "hi", "text"⟩] :=
  ⟨by rfl, by rfl, by rfl⟩

theorem resolveSegs_no_dotdot_aux :
    ∀ (segs acc : List String), ".." ∉ acc →
      ".." ∉ segs.foldl
        (fun acc2 s => if s = ".." then acc2.dropLast else acc2 ++ [s]) acc := by
  intro segs
  induction segs with
  | nil => intro acc h; exact h
  | cons x xs ih =>
    intro acc h
    simp only [List.foldl_cons]
    by_cases hx : x = ".."
    · rw [if_pos hx]
      apply ih
      intro hmem
      exact h (List.dropLast_subset acc hmem)
    · rw [if_neg hx]
      apply ih
      intro hmem
      rcases List.mem_append.mp hmem with h2 | h2
      · exact h h2
      · exact hx (List.mem_singleton.mp h2).symm

theorem resolveSegs_no_dotdot (segs : List String) : ".." ∉ resolveSegs segs :=
  resolveSegs_no_dotdot_aux segs [] (by simp)

theorem resolveSegs_idem (segs : List String) :
    resolveSegs (resolveSegs segs) = resolveSegs segs :=
  resolveSegs_id _ (fun _ hs heq => resolveSegs_no_dotdot segs (heq ▸ hs))

theorem resolveP_idem (fs : FS) (p : PyPath) :
    resolveP fs (resolveP fs p) = resolveP fs p := by
  simp [resolveP, resolveSegs_idem]

theorem wf_norm (fs : FS) (hwf : FS.wfB fs = true) :
    ∀ f ∈ fs.files, f.1.all normSeg = true := by
  intro f hf
  have h1 := (Bool.and_eq_true_iff.mp hwf).1
  exact List.all_eq_true.mp h1 f hf

theorem wf_no_prefix (fs : FS) (hwf : FS.wfB fs = true) :
    ∀ f ∈ fs.files, ∀ g ∈ fs.files, f.1 ≠ g.1 → listStarts f.1 g.1 = false := by
  intro f hf g hg hne
  have h2 := (Bool.and_eq_true_iff.mp hwf).2
  have h4 := List.all_eq_true.mp (List.all_eq_true.mp h2 f hf) g hg
  rcases Bool.or_eq_true_iff.mp h4 with h5 | h5
  · exact absurd (beq_iff_eq.mp h5) hne
  · simpa using h5

theorem isFile_exists (fs : FS) (q : PyPath) (h : isFile fs q = true) :
    ∃ g ∈ fs.files, g.1 = (resolveP fs q).parts := by
  unfold isFile at h
  rcases List.any_eq_true.mp h with ⟨g, hg, hbeq⟩
  exact ⟨g, hg, beq_iff_eq.mp hbeq⟩

theorem isDir_exists (fs : FS) (b : PyPath) (h : isDir fs b = true) :
    ∃ f ∈ fs.files, listStarts (resolveP fs b).parts f.1 = true
      ∧ f.1 ≠ (resolveP fs b).parts := by
  unfold isDir at h
  rcases List.any_eq_true.mp h with ⟨f, hf, hcond⟩
  rcases Bool.and_eq_true_iff.mp hcond with ⟨h1, h2⟩
  exact ⟨f, hf, h1, by simpa using h2⟩

theorem all_normSeg_no_dotdot (l : List String) (h : l.all normSeg = true) :
    ∀ s ∈ l, s ≠ ".." := by
  intro s hs heq
  have h2 := List.all_eq_true.mp h s hs
  rw [heq] at h2
  simp [normSeg] at h2

theorem take_all_normSeg (l : List String) (n : Nat) (h : l.all normSeg = true) :
    (l.take n).all normSeg = true := by
  apply List.all_eq_true.mpr
  intro s hs
  exact List.all_eq_true.mp h s (List.take_subset n l hs)

theorem rglobStar_nil (fs : FS) (p : PyPath) (hd : isDir fs p = false) :
    rglobStar fs (resolveP fs p) = [] := by
  unfold rglobStar
  have hall := List.any_eq_false.mp (by unfold isDir at hd; exact hd)
  have hnil : fs.files.flatMap (fun f =>
      if listStarts (resolveP fs p).parts f.1
           && (resolveP fs p).parts.length < f.1.length then
        (List.range (f.1.length - (resolveP fs p).parts.length)).map
          (fun i => PyPath.mk true (f.1.take ((resolveP fs p).parts.length + 1 + i)))
      else []) = [] := by
    apply List.flatMap_eq_nil_iff.mpr
    intro f hf
    by_cases hs : listStarts (resolveP fs p).parts f.1 = true
    · have h1 := hall f hf
      rw [hs] at h1
      simp only [Bool.true_and] at h1
      have heq : f.1 = (resolveP fs p).parts := by
        by_cases hb : f.1 = (resolveP fs p).parts
        · exact hb
        · exact absurd (by simpa using hb) h1
      rw [if_neg (by simp [hs, heq])]
    · rw [if_neg (by simp [hs])]
  rw [hnil]
  rfl

theorem resolveP_abs_parts (fs : FS) (X : List String) :
    (resolveP fs ⟨true, X⟩).parts = resolveSegs X := by
  simp [resolveP]

theorem resolveP_parts_idem (fs : FS) (p : PyPath) :
    resolveSegs (resolveP fs p).parts = (resolveP fs p).parts := by
  simp [resolveP, resolveSegs_idem]

/-- C9: a packaging root that is neither an existing regular file, nor an
existing directory, nor a glob pattern with at least one match, collects
to the empty sequence without raising. -/
theorem c9_unresolvable_root_yields_empty (fs : FS) (p : PyPath)
    (src : Option PyPath) (sep : Char)
    (hnf : isFile fs p = false)
    (hglob : hasGlobChar (pathName p) = true →
        globChildren fs (resolveP fs (parentP p)) (pathName p) = [])
    (hdir : hasGlobChar (pathName p) = false → isDir fs p = false) :
    collect_files fs p src sep = .ok [] := by
  unfold collect_files
  rw [if_neg (by simp [hnf])]
  by_cases hg : hasGlobChar (pathName p) = true
  · rw [if_pos hg]
    show collectLoop fs sep (anchorRoot fs src) (resolveP fs (parentP p))
        (globChildren fs (resolveP fs (parentP p)) (pathName p)) = Except.ok []
    rw [hglob hg]
    rfl
  · have hb : hasGlobChar (pathName p) = false := by simpa using hg
    rw [if_neg hg]
    show collectLoop fs sep (anchorRoot fs src) (resolveP fs p)
        (rglobStar fs (resolveP fs p)) = Except.ok []
    rw [rglobStar_nil fs p (hdir hb)]
    rfl

/-- Witness for C9 at a nonexistent root on an empty filesystem. -/
theorem c9_unresolvable_root_yields_empty_witness :
    collect_files fsEmpty (mkPath "nope") none '/' = .ok [] :=
  c9_unresolvable_root_yields_empty fsEmpty (mkPath "nope") none '/'
    (by rfl) (fun h => absurd h (by decide)) (fun _ => by rfl)

/-- C8: when `path_input` is not a regular file and its last segment
contains a glob metacharacter (`*`, `?`, `[`, `]`), `collect_files`
enumerates `Path.glob` of the last segment against the resolved parent
directory, and on a wellformed filesystem every matched path that is a
regular file is a direct child of that base (no file in a subdirectory of
the base is ever matched). -/
theorem c8_glob_parent_base_nonrecursive (fs : FS) (p : PyPath)
    (src : Option PyPath) (sep : Char)
    (hwf : FS.wfB fs = true)
    (hnf : isFile fs p = false)
    (hglob : hasGlobChar (pathName p) = true) :
    collect_files fs p src sep =
        collectLoop fs sep (anchorRoot fs src) (resolveP fs (parentP p))
          (globChildren fs (resolveP fs (parentP p)) (pathName p))
      ∧ ∀ q ∈ globChildren fs (resolveP fs (parentP p)) (pathName p),
          isFile fs q = true →
            listStarts (resolveP fs (parentP p)).parts q.parts = true
              ∧ q.parts.length = (resolveP fs (parentP p)).parts.length + 1 := by
  constructor
  · unfold collect_files
    rw [if_neg (by simp [hnf]), if_pos hglob]
  · intro q hq hfile
    unfold globChildren at hq
    by_cases hpat : (pathName p == "**") = true
    · rw [if_pos hpat] at hq
      by_cases hd : isDir fs (resolveP fs (parentP p)) = true
      · have hdf : (!(isDir fs (resolveP fs (parentP p)))) = false := by simp [hd]
        rw [if_neg (by simp [hdf])] at hq
        exfalso
        have hq2 := dedupPaths_subset _ _ hq
        rcases isFile_exists fs q hfile with ⟨g, hgmem, hgeq⟩
        rcases List.mem_cons.mp hq2 with hqb | hqf
        · -- the match is the base directory itself, also listed as a file
          rcases isDir_exists fs (resolveP fs (parentP p)) hd with ⟨f, hfmem, hfst, hfne⟩
          rw [resolveP_idem] at hfst hfne
          have hres : (resolveP fs q).parts = (resolveP fs (parentP p)).parts := by
            rw [hqb, resolveP_abs_parts, resolveP_parts_idem]
          have hg1 : g.1 = (resolveP fs (parentP p)).parts := by rw [hgeq, hres]
          have hnp := wf_no_prefix fs hwf g hgmem f hfmem
            (by rw [hg1]; exact fun h2 => hfne h2.symm)
          rw [hg1, hfst] at hnp
          cases hnp
        · -- the match is a strictly deeper directory, also listed as a file
          rcases List.mem_flatMap.mp hqf with ⟨f, hfmem, hqin⟩
          by_cases hst : listStarts (resolveP fs (parentP p)).parts f.1 = true
          · rw [if_pos hst] at hqin
            rcases List.mem_map.mp hqin with ⟨i, hi, rfl⟩
            have hir := List.mem_range.mp hi
            have hnorm := wf_norm fs hwf f hfmem
            have htake := take_all_normSeg f.1
              ((resolveP fs (parentP p)).parts.length + 1 + i) hnorm
            have hres : (resolveP fs
                ⟨true, f.1.take ((resolveP fs (parentP p)).parts.length + 1 + i)⟩).parts
                = f.1.take ((resolveP fs (parentP p)).parts.length + 1 + i) := by
              rw [resolveP_abs_parts]
              exact resolveSegs_id _ (all_normSeg_no_dotdot _ htake)
            have hg1 : g.1 = f.1.take ((resolveP fs (parentP p)).parts.length + 1 + i) := by
              rw [hgeq, hres]
            have hlen : (f.1.take ((resolveP fs (parentP p)).parts.length + 1 + i)).length
                < f.1.length := by
              simp [List.length_take]
              omega
            have hne : g.1 ≠ f.1 := by
              rw [hg1]
              intro heq
              rw [heq] at hlen
              omega
            have hnp := wf_no_prefix fs hwf g hgmem f hfmem hne
            rw [hg1] at hnp
            rw [listStarts_take_self f.1 _] at hnp
            cases hnp
          · rw [if_neg hst] at hqin
            exact absurd hqin (List.not_mem_nil _)
      · have hdf : isDir fs (resolveP fs (parentP p)) = false := by simpa using hd
        rw [if_pos (by simp [hdf])] at hq
        exact absurd hq (List.not_mem_nil q)
    · rw [if_neg hpat] at hq
      rcases List.mem_filter.mp hq with ⟨hqd, _⟩
      have hq2 := dedupPaths_subset _ _ hqd
      rcases List.mem_flatMap.mp hq2 with ⟨f, hfmem, hqin⟩
      by_cases hst : listStarts (resolveP fs (parentP p)).parts f.1 = true
      · by_cases hlt : (resolveP fs (parentP p)).parts.length < f.1.length
        · rw [if_pos (by simp [hst, hlt])] at hqin
          rcases List.mem_singleton.mp hqin with rfl
          constructor
          · exact listStarts_take _ _ _ hst (by omega)
          · simp [List.length_take]
            omega
        · rw [if_neg (by simp [hst, hlt])] at hqin
          exact absurd hqin (List.not_mem_nil _)
      · rw [if_neg (by simp [hst])] at hqin
        exact absurd hqin (List.not_mem_nil _)

/-- Witness for C8 at the pattern `x/*.txt` over a filesystem holding
`x/a.txt` and `x/sub/deep.txt`. -/
theorem c8_glob_parent_base_nonrecursive_witness :
    collect_files fsGlob (mkPath "x/*.txt") none '/' =
        collectLoop fsGlob '/' (anchorRoot fsGlob none)
          (resolveP fsGlob (parentP (mkPath "x/*.txt")))
          (globChildren fsGlob (resolveP fsGlob (parentP (mkPath "x/*.txt")))
            (pathName (mkPath "x/*.txt")))
      ∧ ∀ q ∈ globChildren fsGlob (resolveP fsGlob (parentP (mkPath "x/*.txt")))
            (pathName (mkPath "x/*.txt")),
          isFile fsGlob q = true →
            listStarts (resolveP fsGlob (parentP (mkPath "x/*.txt"))).parts q.parts = true
              ∧ q.parts.length
                  = (resolveP fsGlob (parentP (mkPath "x/*.txt"))).parts.length + 1 :=
  c8_glob_parent_base_nonrecursive fsGlob (mkPath "x/*.txt") none '/'
    (by rfl) (by rfl) (by rfl)
